import Mathlib

/-!
Verification of the reservation slot allocator and entity cache of the
isupipe backend (`src/go/main.go`, `reserveLivestreamHandler` and the
caches it updates), against the natural-language specification.

The Go handler is embedded as a pure state-transition function over an
explicit database/cache state.  Storage faults are injected through a
`FaultSchedule` that says which storage call fails; a failing call makes
the handler return its 500 branch exactly where the source does.  The
source runs the `SELECT ... FOR UPDATE` and the availability `COUNT` on
the pooled connection `dbConn`, begins the transaction only afterwards,
and performs the cache writes between the livestream `INSERT` and the
tag `INSERT`/`COMMIT`; the embedding reproduces those orderings.
-/

namespace Isupipe

/-- `ReservationSlotModel` (main.go lines 389-394): one row of
`reservation_slots`; `slot` is the remaining capacity (Go `int64`). -/
structure ReservationSlotModel where
  id : Int
  slot : Int
  startAt : Int
  endAt : Int
  deriving DecidableEq, Repr

/-- `ReserveLivestreamRequest` (main.go lines 344-352). -/
structure ReserveLivestreamRequest where
  tags : List Int
  title : String
  description : String
  playlistUrl : String
  thumbnailUrl : String
  startAt : Int
  endAt : Int
  deriving DecidableEq, Repr

/-- `LivestreamModel` (main.go lines 360-369): one row of `livestreams`. -/
structure LivestreamModel where
  id : Int
  userId : Int
  title : String
  description : String
  playlistUrl : String
  thumbnailUrl : String
  startAt : Int
  endAt : Int
  deriving DecidableEq, Repr

/-- `LivestreamTagModel` (main.go lines 383-387): one row of
`livestream_tags` (the generated `id` column is irrelevant here). -/
structure LivestreamTagModel where
  livestreamId : Int
  tagId : Int
  deriving DecidableEq, Repr

/-- Modelled from the spec: the `EntityCache<K,V>` implementation
(`NewCache`, `Get`/`Set`/`Delete`/`All`/`Init`) is referenced from
`main.go` but its defining file is not among the provided sources.
Spec §4.1: a concurrency-safe in-process key-value store; modelled
sequentially as an association list with unique keys. -/
structure Cache (K V : Type) where
  entries : List (K × V)
  deriving DecidableEq, Repr

namespace Cache

/-- Modelled from the spec: `Init()` resets the cache to empty. -/
def empty (K V : Type) : Cache K V := ⟨[]⟩

/-- Modelled from the spec: `Get(key)` returns `(value, found)` purely
from memory — it takes no database state. -/
def get {K V : Type} [DecidableEq K] (c : Cache K V) (k : K) : Option V :=
  (c.entries.find? fun p => decide (p.1 = k)).map Prod.snd

/-- Modelled from the spec: `Set(key, value)` is an unconditional
last-writer-wins overwrite: any previous binding of `k` is dropped and
the new binding installed. -/
def set {K V : Type} [DecidableEq K] (c : Cache K V) (k : K) (v : V) : Cache K V :=
  ⟨(k, v) :: c.entries.filter fun p => decide (p.1 ≠ k)⟩

/-- Modelled from the spec: `Delete(key)` removes the entry. -/
def del {K V : Type} [DecidableEq K] (c : Cache K V) (k : K) : Cache K V :=
  ⟨c.entries.filter fun p => decide (p.1 ≠ k)⟩

/-- Modelled from the spec: `All()` returns a snapshot sequence of all
cached values (iteration order of a Go map is arbitrary; any listed
order represents it). -/
def all {K V : Type} (c : Cache K V) : List V :=
  c.entries.map Prod.snd

/-- `BulkLoad`: the startup population loop of `initializeHandler`
(main.go lines 183-198): `Set` is called once per record. -/
def bulkLoad {K V : Type} [DecidableEq K] (c : Cache K V) (records : List (K × V)) : Cache K V :=
  records.foldl (fun acc r => set acc r.1 r.2) c

end Cache

/-- The persisted tables touched by `reserveLivestreamHandler`, plus the
`AUTO_INCREMENT` counter of `livestreams`. -/
structure DBState where
  reservation_slots : List ReservationSlotModel
  livestreams : List LivestreamModel
  livestream_tags : List LivestreamTagModel
  nextLivestreamId : Int
  deriving DecidableEq, Repr

/-- Database plus the two process-local caches the reservation path
writes (`livestreamModelByIdCache`, `livestreamModelByUserIDCache`,
main.go lines 44-45). -/
structure ServerState where
  db : DBState
  livestreamModelByIdCache : Cache Int LivestreamModel
  livestreamModelByUserIDCache : Cache Int (List LivestreamModel)
  deriving DecidableEq, Repr

/-- `time.Date(2023, 11, 25, 1, 0, 0, 0, time.UTC).Unix()`
(main.go line 417). -/
def termStartAt : Int := 1700874000

/-- `time.Date(2024, 11, 25, 1, 0, 0, 0, time.UTC).Unix()`
(main.go line 418). -/
def termEndAt : Int := 1732496400

/-- The validation test of main.go line 422:
`reserveStartAt ≥ termEndAt || reserveEndAt ≤ termStartAt` rejects with
400 "bad reservation time range".  All times are whole seconds, so the
`time.Time` comparisons coincide with integer comparisons on the unix
values. -/
def reserveOutOfTerm (req : ReserveLivestreamRequest) : Bool :=
  decide (termEndAt ≤ req.startAt) || decide (req.endAt ≤ termStartAt)

/-- Row predicate of the slot queries (main.go lines 429 and 465):
`start_at >= req.StartAt AND end_at <= req.EndAt`. -/
def slotInRange (s e : Int) (r : ReservationSlotModel) : Bool :=
  decide (s ≤ r.startAt) && decide (r.endAt ≤ e)

/-- `SELECT * FROM reservation_slots WHERE start_at >= ? AND end_at <= ?
FOR UPDATE` (main.go line 429) — the rows the handler reads (issued on
the pooled connection; see `reserveStorageCalls`). -/
def lockRange (db : DBState) (s e : Int) : List ReservationSlotModel :=
  db.reservation_slots.filter (slotInRange s e)

/-- The availability count (main.go lines 434-440):
`SELECT COUNT(*) FROM reservation_slots WHERE (start_at = s₁ AND end_at
= e₁ AND slot > 0) OR ...`, one disjunct per row previously read. -/
def countAvailable (db : DBState) (slots : List ReservationSlotModel) : Nat :=
  (db.reservation_slots.filter fun r =>
    slots.any fun q =>
      decide (r.startAt = q.startAt) && decide (r.endAt = q.endAt) && decide (0 < r.slot)).length

/-- `UPDATE reservation_slots SET slot = slot - 1 WHERE start_at >= ?
AND end_at <= ?` (main.go line 465): unconditional decrement of every
row in range. -/
def decrementRange (db : DBState) (s e : Int) : List ReservationSlotModel :=
  db.reservation_slots.map fun r =>
    if slotInRange s e r then { r with slot := r.slot - 1 } else r

/-- The `livestreams` row the handler builds and inserts (main.go lines
447-457 and 469-478), with the generated id filled in. -/
def newLivestreamModel (db : DBState) (userID : Int) (req : ReserveLivestreamRequest) :
    LivestreamModel :=
  { id := db.nextLivestreamId
    userId := userID
    title := req.title
    description := req.description
    playlistUrl := req.playlistUrl
    thumbnailUrl := req.thumbnailUrl
    startAt := req.startAt
    endAt := req.endAt }

/-- The cache writes of main.go lines 479-485: point-set the by-id
entry, then read-modify-write the by-owner list (absent treated as
empty, append, `Set`).  In the source these run after the livestream
`INSERT` but before the tag `INSERT` and the `COMMIT`. -/
def applyCacheUpdates (st : ServerState) (model : LivestreamModel) : ServerState :=
  { st with
    livestreamModelByIdCache := Cache.set st.livestreamModelByIdCache model.id model
    livestreamModelByUserIDCache :=
      Cache.set st.livestreamModelByUserIDCache model.userId
        (((Cache.get st.livestreamModelByUserIDCache model.userId).getD []) ++ [model]) }

/-- The state of the database after `COMMIT` (main.go line 502) applied
the writes of the transaction: the capacity decrement (line 465), the
livestream insert (line 469) and the tag inserts (line 497). -/
def commitDB (db : DBState) (userID : Int) (req : ReserveLivestreamRequest) : DBState :=
  { reservation_slots := decrementRange db req.startAt req.endAt
    livestreams := db.livestreams ++ [newLivestreamModel db userID req]
    livestream_tags := db.livestream_tags ++
      req.tags.map fun t => { livestreamId := db.nextLivestreamId, tagId := t }
    nextLivestreamId := db.nextLivestreamId + 1 }

/-- The storage calls of one `reserveLivestreamHandler` run, in order. -/
inductive DbStep where
  | selectSlots
  | countSlots
  | beginTx
  | decrementSlots
  | insertLivestream
  | insertTags
  | commit
  deriving DecidableEq, Repr

/-- Which storage calls fault (connection loss, lock-wait timeout, ...)
during one handler run. -/
def FaultSchedule : Type := DbStep → Bool

/-- The schedule with no storage faults. -/
def noFault : FaultSchedule := fun _ => false

/-- The schedule where only the tag `INSERT` (main.go line 497) faults. -/
def tagInsertFault : FaultSchedule := fun s =>
  match s with
  | DbStep.insertTags => true
  | _ => false

/-- Outcome of `reserveLivestreamHandler`: 400 "bad reservation time
range" (line 423), 400 capacity rejection (line 444), any 500 storage
error, or 201 with the created livestream. -/
inductive ReserveResult where
  | outOfRange
  | overbooked
  | storageFailure
  | created (livestream : LivestreamModel)
  deriving DecidableEq, Repr

/-- `reserveLivestreamHandler` (main.go lines 396-512) as a state
transition.  Branches, in source order: the term validation (line 422);
the `FOR UPDATE` select (line 429, pooled connection); the availability
count (lines 434-442) — when the select matched no rows the condition
list is empty and the assembled SQL `SELECT COUNT(*) FROM
reservation_slots WHERE ` is malformed, so the query itself errors
(500); the `count < 1` rejection (line 443); `BeginTxx`, the decrement
`UPDATE` and livestream `INSERT` (lines 459-477), whose failures roll
back with no visible change; then the cache writes (lines 479-485);
then the tag `INSERT` (only issued when `req.tags` is non-empty, lines
496-500) and `COMMIT` (line 502), whose failures roll the database back
but leave the caches already written; finally success.  The
post-commit response assembly (`fillLivestreamResponse`, line 506) is
the external ResponseAssembler and is outside the modelled core. -/
def reserveLivestreamHandler (fault : FaultSchedule) (st : ServerState)
    (userID : Int) (req : ReserveLivestreamRequest) : ReserveResult × ServerState :=
  if reserveOutOfTerm req then
    (ReserveResult.outOfRange, st)
  else if fault DbStep.selectSlots then
    (ReserveResult.storageFailure, st)
  else if (lockRange st.db req.startAt req.endAt).isEmpty || fault DbStep.countSlots then
    (ReserveResult.storageFailure, st)
  else if countAvailable st.db (lockRange st.db req.startAt req.endAt) < 1 then
    (ReserveResult.overbooked, st)
  else if fault DbStep.beginTx || fault DbStep.decrementSlots || fault DbStep.insertLivestream then
    (ReserveResult.storageFailure, st)
  else if (!req.tags.isEmpty && fault DbStep.insertTags) || fault DbStep.commit then
    (ReserveResult.storageFailure, applyCacheUpdates st (newLivestreamModel st.db userID req))
  else
    (ReserveResult.created (newLivestreamModel st.db userID req),
      { applyCacheUpdates st (newLivestreamModel st.db userID req) with
          db := commitDB st.db userID req })

/-- A sequence of reservation requests (fault schedule, session user id,
request body), applied in order. -/
def runReserves (st : ServerState) :
    List (FaultSchedule × Int × ReserveLivestreamRequest) → ServerState
  | [] => st
  | c :: cs => runReserves (reserveLivestreamHandler c.1 st c.2.1 c.2.2).2 cs

/-- Which connection each storage call of the handler is issued on:
`pool` is `dbConn` (autocommit), `tx` the transaction begun at line
459. -/
inductive Conn where
  | pool
  | tx
  deriving DecidableEq, Repr

/-- The ordered storage calls of a successful handler run, each with its
connection, read off main.go: `dbConn.SelectContext` (line 429),
`dbConn.GetContext` (line 440), `dbConn.BeginTxx` (line 459),
`tx.ExecContext` (line 465), `tx.NamedExecContext` (line 469),
`tx.NamedExecContext` for tags when present (line 497), `tx.Commit`
(line 502). -/
def reserveStorageCalls (tags : List Int) : List (Conn × DbStep) :=
  [(Conn.pool, DbStep.selectSlots), (Conn.pool, DbStep.countSlots),
    (Conn.pool, DbStep.beginTx), (Conn.tx, DbStep.decrementSlots),
    (Conn.tx, DbStep.insertLivestream)] ++
  (if tags.isEmpty then [] else [(Conn.tx, DbStep.insertTags)]) ++
  [(Conn.tx, DbStep.commit)]

/-! Concrete fixtures used by witnesses and counterexamples. -/

/-- A slot covering the first hour of the horizon with capacity 1. -/
def slotA : ReservationSlotModel :=
  { id := 1, slot := 1, startAt := 1700874000, endAt := 1700877600 }

/-- The adjacent second-hour slot with capacity 1. -/
def slotB : ReservationSlotModel :=
  { id := 2, slot := 1, startAt := 1700877600, endAt := 1700881200 }

/-- A server state with the two-slot calendar, empty tables and caches. -/
def twoSlotState : ServerState :=
  { db := { reservation_slots := [slotA, slotB], livestreams := [],
            livestream_tags := [], nextLivestreamId := 1 }
    livestreamModelByIdCache := Cache.empty Int LivestreamModel
    livestreamModelByUserIDCache := Cache.empty Int (List LivestreamModel) }

/-- The two-slot calendar with both capacities exhausted. -/
def exhaustedState : ServerState :=
  { db := { reservation_slots :=
              [{ slotA with slot := 0 }, { slotB with slot := 0 }],
            livestreams := [], livestream_tags := [], nextLivestreamId := 1 }
    livestreamModelByIdCache := Cache.empty Int LivestreamModel
    livestreamModelByUserIDCache := Cache.empty Int (List LivestreamModel) }

/-- A request body with fixed metadata and the given tags and interval. -/
def mkReq (tags : List Int) (s e : Int) : ReserveLivestreamRequest :=
  { tags := tags, title := "t", description := "d", playlistUrl := "p",
    thumbnailUrl := "u", startAt := s, endAt := e }

/-- A tagged in-horizon request used by several witnesses. -/
def wReq : ReserveLivestreamRequest := mkReq [3] 1700874000 1700877600

/-- The livestream record the handler creates for `wReq` by user 7. -/
def wModel : LivestreamModel := newLivestreamModel twoSlotState.db 7 wReq

/-- The state after the successful `wReq` reservation. -/
def wState : ServerState := (reserveLivestreamHandler noFault twoSlotState 7 wReq).2

/-- A request overlapping the horizon only partially: it starts one hour
before the horizon and ends inside it. -/
def overlapReq : ReserveLivestreamRequest := mkReq [] 1700870400 1700877600

/-- The record created for `overlapReq`, whose interval starts before
the horizon. -/
def overlapModel : LivestreamModel := newLivestreamModel twoSlotState.db 7 overlapReq

/-- All database slot capacities are non-negative. -/
def slotsNonneg (db : DBState) : Prop := ∀ r ∈ db.reservation_slots, 0 ≤ r.slot

instance slotsNonnegDecidable (db : DBState) : Decidable (slotsNonneg db) :=
  inferInstanceAs (Decidable (∀ r ∈ db.reservation_slots, 0 ≤ r.slot))

/-- The boundary pairs of the slot table (rows never change bounds). -/
def slotBounds (db : DBState) : List (Int × Int) :=
  db.reservation_slots.map fun r => (r.startAt, r.endAt)

/-- `slotInRange` on a bare boundary pair. -/
def boundsInRange (s e : Int) (p : Int × Int) : Bool :=
  decide (s ≤ p.1) && decide (p.2 ≤ e)

/-- Whether some record of a bulk-load snapshot binds key `k`. -/
def boundIn {K V : Type} [DecidableEq K] (records : List (K × V)) (k : K) : Bool :=
  records.any fun p => decide (p.1 = k)

/-- The keys currently present in a cache. -/
def cacheKeys {K V : Type} (c : Cache K V) : List K := c.entries.map Prod.fst

/-! Helper lemmas. -/

/-- The decrement predicate restated with a propositional condition. -/
theorem decrementRange_eq_prop (db : DBState) (s e : Int) :
    decrementRange db s e = db.reservation_slots.map
      (fun r => if s ≤ r.startAt ∧ r.endAt ≤ e then { r with slot := r.slot - 1 } else r) := by
  unfold decrementRange slotInRange
  congr 1
  funext r
  simp

/-- Reading back the key just written yields the written value. -/
theorem cache_get_set_self {K V : Type} [DecidableEq K] (c : Cache K V) (k : K) (v : V) :
    Cache.get (Cache.set c k v) k = some v := by
  simp [Cache.get, Cache.set, List.find?]

/-- Dropping the bindings of an unrelated key does not change a lookup. -/
theorem cache_find_filter_ne {K V : Type} [DecidableEq K] (k k' : K) (h : k' ≠ k)
    (l : List (K × V)) :
    ((l.filter fun p => decide (p.1 ≠ k)).find? fun p => decide (p.1 = k')) =
      l.find? fun p => decide (p.1 = k') := by
  induction l with
  | nil => rfl
  | cons p t ih =>
      by_cases hp : p.1 = k
      · rw [List.filter_cons_of_neg (by simp [hp])]
        rw [List.find?_cons_of_neg _
          (by simp only [decide_eq_true_eq]; rw [hp]; exact fun hh => h hh.symm)]
        exact ih
      · rw [List.filter_cons_of_pos (by simp [hp])]
        by_cases hp' : p.1 = k'
        · rw [List.find?_cons_of_pos _ (by simp [hp']), List.find?_cons_of_pos _ (by simp [hp'])]
        · rw [List.find?_cons_of_neg _ (by simp [hp']), List.find?_cons_of_neg _ (by simp [hp'])]
          exact ih

/-- Writing one key leaves lookups of other keys unchanged. -/
theorem cache_get_set_ne {K V : Type} [DecidableEq K] (c : Cache K V) (k k' : K) (v : V)
    (h : k' ≠ k) :
    Cache.get (Cache.set c k v) k' = Cache.get c k' := by
  unfold Cache.get Cache.set
  rw [List.find?_cons_of_neg _ (by simp; exact fun hh => h hh.symm)]
  rw [cache_find_filter_ne k k' h]

/-- A bulk load not touching key `k` leaves its lookup unchanged. -/
theorem cache_get_bulkLoad_of_not_bound {K V : Type} [DecidableEq K]
    (records : List (K × V)) (k : K) (h : boundIn records k = false) (c : Cache K V) :
    Cache.get (Cache.bulkLoad c records) k = Cache.get c k := by
  induction records generalizing c with
  | nil => rfl
  | cons p t ih =>
      simp only [boundIn, List.any_cons, Bool.or_eq_false_iff, decide_eq_false_iff_not] at h
      show Cache.get (Cache.bulkLoad (Cache.set c p.1 p.2) t) k = Cache.get c k
      rw [ih (by simp [boundIn, h.2]), cache_get_set_ne _ _ _ _ (fun hh => h.1 hh.symm)]

/-- A bulk load binding key `k` overrides whatever was there before, so
the starting cache is irrelevant for that key. -/
theorem cache_get_bulkLoad_of_bound {K V : Type} [DecidableEq K]
    (records : List (K × V)) (k : K) (h : boundIn records k = true) (c c' : Cache K V) :
    Cache.get (Cache.bulkLoad c records) k = Cache.get (Cache.bulkLoad c' records) k := by
  induction records generalizing c c' with
  | nil => simp [boundIn] at h
  | cons p t ih =>
      show Cache.get (Cache.bulkLoad (Cache.set c p.1 p.2) t) k =
        Cache.get (Cache.bulkLoad (Cache.set c' p.1 p.2) t) k
      by_cases hbt : boundIn t k = true
      · exact ih hbt _ _
      · rw [cache_get_bulkLoad_of_not_bound t k (by simpa using hbt),
          cache_get_bulkLoad_of_not_bound t k (by simpa using hbt)]
        simp only [boundIn, List.any_cons, Bool.or_eq_true, decide_eq_true_eq] at h
        have hk : p.1 = k := by
          rcases h with h | h
          · exact h
          · exact absurd (by simpa [boundIn] using h) hbt
        rw [← hk, cache_get_set_self, cache_get_set_self]

/-- Lookups after a double bulk load from one snapshot agree with the
lookups after a single load. -/
theorem cache_get_bulkLoad_twice {K V : Type} [DecidableEq K]
    (records : List (K × V)) (k : K) :
    Cache.get (Cache.bulkLoad (Cache.bulkLoad (Cache.empty K V) records) records) k =
      Cache.get (Cache.bulkLoad (Cache.empty K V) records) k := by
  by_cases hb : boundIn records k = true
  · exact cache_get_bulkLoad_of_bound records k hb _ (Cache.empty K V)
  · rw [cache_get_bulkLoad_of_not_bound records k (by simpa using hb)]

/-- `Set` keeps cache keys duplicate-free. -/
theorem cacheKeys_nodup_set {K V : Type} [DecidableEq K] (c : Cache K V) (k : K) (v : V)
    (h : (cacheKeys c).Nodup) : (cacheKeys (Cache.set c k v)).Nodup := by
  unfold cacheKeys Cache.set
  simp only [List.map_cons]
  refine List.nodup_cons.mpr ⟨?_, ?_⟩
  · intro hk
    obtain ⟨p, hp, hpk⟩ := List.mem_map.mp hk
    obtain ⟨_, hpne⟩ := List.mem_filter.mp hp
    simp only [decide_eq_true_eq] at hpne
    exact hpne hpk
  · exact List.Nodup.sublist (List.Sublist.map Prod.fst (List.filter_sublist _)) h

/-- `BulkLoad` keeps cache keys duplicate-free. -/
theorem cacheKeys_nodup_bulkLoad {K V : Type} [DecidableEq K] (records : List (K × V))
    (c : Cache K V) (h : (cacheKeys c).Nodup) :
    (cacheKeys (Cache.bulkLoad c records)).Nodup := by
  induction records generalizing c with
  | nil => exact h
  | cons p t ih => exact ih _ (cacheKeys_nodup_set c p.1 p.2 h)

/-- With duplicate-free keys, lookup finds exactly the stored pair. -/
theorem cache_find_of_mem_nodup {K V : Type} [DecidableEq K] (l : List (K × V))
    (hnd : (l.map Prod.fst).Nodup) (p : K × V) (hp : p ∈ l) :
    l.find? (fun q => decide (q.1 = p.1)) = some p := by
  induction l with
  | nil => cases hp
  | cons q t ih =>
      rcases List.mem_cons.mp hp with hpq | hpt
      · rw [hpq]
        exact List.find?_cons_of_pos _ (by simp)
      · have hq1 : q.1 ≠ p.1 := by
          intro he
          have hmem : p.1 ∈ t.map Prod.fst := List.mem_map.mpr ⟨p, hpt, rfl⟩
          rw [← he] at hmem
          exact (List.nodup_cons.mp (by simpa using hnd)).1 hmem
        rw [List.find?_cons_of_neg _ (by simpa using hq1)]
        exact ih (List.nodup_cons.mp (by simpa using hnd)).2 hpt

/-- With duplicate-free keys, the `All` snapshot holds exactly the
values some key maps to. -/
theorem cache_mem_all_iff {K V : Type} [DecidableEq K] (c : Cache K V)
    (hnd : (cacheKeys c).Nodup) (v : V) :
    v ∈ Cache.all c ↔ ∃ k, Cache.get c k = some v := by
  constructor
  · intro hv
    obtain ⟨p, hp, hpv⟩ := List.mem_map.mp hv
    refine ⟨p.1, ?_⟩
    unfold Cache.get
    rw [cache_find_of_mem_nodup c.entries hnd p hp]
    simp [hpv]
  · rintro ⟨k, hk⟩
    unfold Cache.get at hk
    rcases hfind : c.entries.find? (fun q => decide (q.1 = k)) with _ | q
    · rw [hfind] at hk
      cases hk
    · rw [hfind] at hk
      have hqmem := List.mem_of_find?_eq_some hfind
      have hqv : q.2 = v := by simpa using hk
      exact List.mem_map.mpr ⟨q, hqmem, hqv⟩

/-- No handler branch changes the boundary pairs of the slot table. -/
theorem slotBounds_reserve (fault : FaultSchedule) (st : ServerState)
    (userID : Int) (req : ReserveLivestreamRequest) :
    slotBounds (reserveLivestreamHandler fault st userID req).2.db = slotBounds st.db := by
  unfold reserveLivestreamHandler
  split_ifs <;> simp [slotBounds, applyCacheUpdates, commitDB, decrementRange, List.map_map]
  intro r _
  by_cases h : slotInRange req.startAt req.endAt r = true <;> simp [h]

/-- How many rows the range select matches is determined by the boundary
pairs alone. -/
theorem length_lockRange_eq_bounds (db : DBState) (s e : Int) :
    (lockRange db s e).length = ((slotBounds db).filter (boundsInRange s e)).length := by
  unfold lockRange slotBounds boundsInRange slotInRange
  rw [List.filter_map, List.length_map]
  congr 1

/-- One handler run preserves non-negativity of all capacities provided
the requested range matches at most one slot row. -/
theorem reserve_step_nonneg (fault : FaultSchedule) (st : ServerState)
    (userID : Int) (req : ReserveLivestreamRequest)
    (hn : slotsNonneg st.db)
    (h1 : (lockRange st.db req.startAt req.endAt).length ≤ 1) :
    slotsNonneg (reserveLivestreamHandler fault st userID req).2.db := by
  unfold reserveLivestreamHandler
  split_ifs with hb1 hb2 hb3 hb4 hb5 hb6
  · exact hn
  · exact hn
  · exact hn
  · exact hn
  · exact hn
  · exact hn
  · rw [Nat.lt_one_iff] at hb4
    simp only [Bool.or_eq_true, not_or] at hb3
    have hbne : lockRange st.db req.startAt req.endAt ≠ [] := by
      intro hnil
      exact hb3.1 (by rw [hnil]; rfl)
    obtain ⟨q, hq⟩ : ∃ q, lockRange st.db req.startAt req.endAt = [q] := by
      rcases hl : lockRange st.db req.startAt req.endAt with _ | ⟨a, t⟩
      · exact absurd hl hbne
      · rcases t with _ | ⟨b, t2⟩
        · exact ⟨a, rfl⟩
        · rw [hl] at h1
          simp at h1
    intro x hx
    have hx' : x ∈ decrementRange st.db req.startAt req.endAt := hx
    unfold decrementRange at hx'
    obtain ⟨r, hrmem, hrx⟩ := List.mem_map.mp hx'
    by_cases hir : slotInRange req.startAt req.endAt r = true
    · have hrq : r = q := by
        have hmem : r ∈ lockRange st.db req.startAt req.endAt :=
          List.mem_filter.mpr ⟨hrmem, hir⟩
        rw [hq] at hmem
        simpa using hmem
      have hfilne : st.db.reservation_slots.filter (fun r =>
          (lockRange st.db req.startAt req.endAt).any fun q2 =>
            decide (r.startAt = q2.startAt) && decide (r.endAt = q2.endAt) &&
              decide (0 < r.slot)) ≠ [] := by
        intro hnil
        exact hb4 (by unfold countAvailable; rw [List.length_eq_zero]; exact hnil)
      obtain ⟨rr, hrr⟩ := List.exists_mem_of_ne_nil _ hfilne
      obtain ⟨hrrmem, hrrpred⟩ := List.mem_filter.mp hrr
      obtain ⟨q2, hq2mem, hq2⟩ := List.any_eq_true.mp hrrpred
      simp only [Bool.and_eq_true, decide_eq_true_eq] at hq2
      obtain ⟨⟨hqs, hqe⟩, hslot⟩ := hq2
      obtain ⟨hq2rows, hq2range⟩ := List.mem_filter.mp hq2mem
      simp only [slotInRange, Bool.and_eq_true, decide_eq_true_eq] at hq2range
      have hrrrange : slotInRange req.startAt req.endAt rr = true := by
        simp only [slotInRange, Bool.and_eq_true, decide_eq_true_eq]
        omega
      have hrrq : rr = q := by
        have hmem : rr ∈ lockRange st.db req.startAt req.endAt :=
          List.mem_filter.mpr ⟨hrrmem, hrrrange⟩
        rw [hq] at hmem
        simpa using hmem
      rw [if_pos hir] at hrx
      subst hrx
      show (0:Int) ≤ r.slot - 1
      rw [hrq, ← hrrq]
      omega
    · rw [if_neg hir] at hrx
      subst hrx
      exact hn r hrmem
/-! Claim theorems. -/

/-- Claim C1, counterexample: starting from a calendar of two capacity-1
slots, a single-slot reservation followed by a two-slot reservation is
accepted (the count admits it because the second slot still has
capacity), and the unconditional range decrement drives the first slot
to capacity -1 — the non-negativity invariant fails. -/
theorem slot_capacity_negative_cex :
    ((runReserves twoSlotState
        [(noFault, 7, mkReq [] 1700874000 1700877600),
          (noFault, 8, mkReq [] 1700874000 1700881200)]).db.reservation_slots.map
      fun r => r.slot) = [-1, 0] := by
  decide

/-- Claim C1 (amended): if every slot starts with non-negative remaining
capacity and every issued request matches at most one slot row, then
every state reachable by any sequence of Reserve calls keeps every
remaining capacity non-negative.  (The counterexample shows the
restriction is necessary: multi-slot requests can drive a capacity
negative.) -/
theorem reserve_run_nonneg_single_slot (st0 : ServerState)
    (calls : List (FaultSchedule × Int × ReserveLivestreamRequest))
    (hn : slotsNonneg st0.db)
    (h1 : ∀ c ∈ calls,
      ((slotBounds st0.db).filter (boundsInRange c.2.2.startAt c.2.2.endAt)).length ≤ 1) :
    slotsNonneg (runReserves st0 calls).db := by
  induction calls generalizing st0 with
  | nil => exact hn
  | cons c cs ih =>
      rw [runReserves]
      refine ih _ ?_ ?_
      · exact reserve_step_nonneg c.1 st0 c.2.1 c.2.2 hn
          (by rw [length_lockRange_eq_bounds]; exact h1 c (List.mem_cons_self c cs))
      · intro d hd
        rw [slotBounds_reserve]
        exact h1 d (List.mem_cons_of_mem c hd)

/-- Claim C1, witness: a single-slot reservation sequence on the
two-slot calendar keeps all capacities non-negative. -/
theorem reserve_run_nonneg_single_slot_witness :
    slotsNonneg (runReserves twoSlotState [(noFault, 7, mkReq [] 1700874000 1700877600)]).db :=
  reserve_run_nonneg_single_slot twoSlotState
    [(noFault, 7, mkReq [] 1700874000 1700877600)] (by decide) (by decide)

/-- Claim C2: in the source, the `SELECT ... FOR UPDATE` and the
availability `COUNT` are issued on the pooled autocommit connection
before `BeginTxx`; only the decrement and the inserts run inside the
transaction.  The row locks therefore do not span the availability
check, contrary to the claim (and to the comment at main.go line 427). -/
theorem reserve_lock_and_count_outside_tx :
    ((reserveStorageCalls [3]).filter fun c => decide (c.1 = Conn.pool)).map Prod.snd =
        [DbStep.selectSlots, DbStep.countSlots, DbStep.beginTx] ∧
      ((reserveStorageCalls [3]).filter fun c => decide (c.1 = Conn.tx)).map Prod.snd =
        [DbStep.decrementSlots, DbStep.insertLivestream, DbStep.insertTags, DbStep.commit] := by
  decide

/-- Claim C3, counterexample: when the tag insert fails, the handler
returns a storage failure and the transaction rolls back (the database
is unchanged), yet the by-id cache was already mutated with the
rolled-back record. -/
theorem cache_mutated_on_failed_reserve_cex :
    (reserveLivestreamHandler tagInsertFault twoSlotState 7 wReq).1 =
        ReserveResult.storageFailure ∧
      (reserveLivestreamHandler tagInsertFault twoSlotState 7 wReq).2.db = twoSlotState.db ∧
      (reserveLivestreamHandler tagInsertFault twoSlotState 7 wReq).2.livestreamModelByIdCache ≠
        twoSlotState.livestreamModelByIdCache := by
  decide

/-- Claim C3 (amended): on any non-success outcome the transaction is
rolled back, so the database is unchanged; and when the failure is not
at the tag insert or the commit (both of which run after the cache
writes), the whole state — caches included — is unchanged. -/
theorem reserve_failure_rollback (fault : FaultSchedule) (st : ServerState)
    (userID : Int) (req : ReserveLivestreamRequest)
    (h : ∀ ls, (reserveLivestreamHandler fault st userID req).1 ≠ ReserveResult.created ls) :
    (reserveLivestreamHandler fault st userID req).2.db = st.db ∧
    (fault DbStep.insertTags = false → fault DbStep.commit = false →
      (reserveLivestreamHandler fault st userID req).2 = st) := by
  unfold reserveLivestreamHandler at h ⊢
  split_ifs with h1 h2 h3 h4 h5 h6 <;> simp_all [applyCacheUpdates]
  intro hf1 hf2
  rw [hf1, hf2] at h6
  simp at h6

/-- Claim C3, witness: an out-of-term request fails and leaves the whole
state untouched. -/
theorem reserve_failure_rollback_witness :
    (reserveLivestreamHandler noFault twoSlotState 7 (mkReq [] termEndAt 1732500000)).2 =
      twoSlotState :=
  have hres : (reserveLivestreamHandler noFault twoSlotState 7
      (mkReq [] termEndAt 1732500000)).1 = ReserveResult.outOfRange := by decide
  (reserve_failure_rollback noFault twoSlotState 7 (mkReq [] termEndAt 1732500000)
    (fun ls hc => ReserveResult.noConfusion (hres.symm.trans hc))).2 rfl rfl

/-- Claim C4: for a request that passes validation, whose range matches
at least one slot row, and whose two read queries do not fault, the
handler answers Overbooked exactly when the availability count is below
one, and an Overbooked answer leaves the state untouched. -/
theorem reserve_overbooked_iff (fault : FaultSchedule) (st : ServerState)
    (userID : Int) (req : ReserveLivestreamRequest)
    (hv : reserveOutOfTerm req = false)
    (hsel : fault DbStep.selectSlots = false)
    (hcnt : fault DbStep.countSlots = false)
    (hne : (lockRange st.db req.startAt req.endAt).isEmpty = false) :
    ((reserveLivestreamHandler fault st userID req).1 = ReserveResult.overbooked ↔
      countAvailable st.db (lockRange st.db req.startAt req.endAt) < 1) ∧
    ((reserveLivestreamHandler fault st userID req).1 = ReserveResult.overbooked →
      (reserveLivestreamHandler fault st userID req).2 = st) := by
  unfold reserveLivestreamHandler
  split_ifs with h1 h2 h3 h4 h5 h6 <;> simp_all

/-- Claim C4, witness: on the exhausted calendar the in-range request is
rejected as Overbooked. -/
theorem reserve_overbooked_iff_witness :
    (reserveLivestreamHandler noFault exhaustedState 7 (mkReq [] 1700874000 1700877600)).1 =
      ReserveResult.overbooked :=
  ((reserve_overbooked_iff noFault exhaustedState 7 (mkReq [] 1700874000 1700877600)
      (by decide) rfl rfl (by decide)).1).mpr (by decide)

/-- Claim C5, counterexample: a request starting one hour before the
horizon (so not contained in it) is not rejected as OutOfRange — the
source only rejects ranges that do not overlap the horizon at all. -/
theorem overlap_not_rejected_cex :
    overlapReq.startAt < termStartAt ∧
      (reserveLivestreamHandler noFault twoSlotState 7 overlapReq).1 ≠
        ReserveResult.outOfRange := by
  decide

/-- Claim C5 (amended): the handler answers OutOfRange exactly when the
requested interval does not overlap the horizon (start at or after the
horizon end, or end at or before the horizon start) — in particular a
request starting at the horizon end is rejected — and an OutOfRange
answer is produced before any storage access, leaving the state
untouched. -/
theorem reserve_outOfRange_iff (fault : FaultSchedule) (st : ServerState)
    (userID : Int) (req : ReserveLivestreamRequest) :
    ((reserveLivestreamHandler fault st userID req).1 = ReserveResult.outOfRange ↔
      (termEndAt ≤ req.startAt ∨ req.endAt ≤ termStartAt)) ∧
    ((reserveLivestreamHandler fault st userID req).1 = ReserveResult.outOfRange →
      (reserveLivestreamHandler fault st userID req).2 = st) := by
  unfold reserveLivestreamHandler reserveOutOfTerm
  split_ifs with h1 h2 h3 h4 h5 h6 <;> simp_all

/-- Claim C5, witness: the spec scenario — a request starting exactly at
the horizon end is rejected as OutOfRange. -/
theorem reserve_outOfRange_iff_witness :
    (reserveLivestreamHandler noFault twoSlotState 7 (mkReq [] termEndAt 1732500000)).1 =
      ReserveResult.outOfRange :=
  ((reserve_outOfRange_iff noFault twoSlotState 7 (mkReq [] termEndAt 1732500000)).1).mpr
    (Or.inl (by decide))

/-- Claim C6: an accepted reservation decrements every slot in range by
exactly one (others unchanged), appends exactly one livestream row
carrying the session user and request fields, and appends one tag row
per requested tag, all in the committed transaction. -/
theorem reserve_created_effects (fault : FaultSchedule) (st : ServerState)
    (userID : Int) (req : ReserveLivestreamRequest) (ls : LivestreamModel) (st' : ServerState)
    (h : reserveLivestreamHandler fault st userID req = (ReserveResult.created ls, st')) :
    ls.userId = userID ∧ ls.title = req.title ∧ ls.description = req.description ∧
    ls.playlistUrl = req.playlistUrl ∧ ls.thumbnailUrl = req.thumbnailUrl ∧
    ls.startAt = req.startAt ∧ ls.endAt = req.endAt ∧
    st'.db.livestreams = st.db.livestreams ++ [ls] ∧
    st'.db.reservation_slots = st.db.reservation_slots.map
      (fun r => if req.startAt ≤ r.startAt ∧ r.endAt ≤ req.endAt then
        { r with slot := r.slot - 1 } else r) ∧
    st'.db.livestream_tags = st.db.livestream_tags ++
      req.tags.map (fun t => { livestreamId := ls.id, tagId := t }) := by
  unfold reserveLivestreamHandler at h
  split_ifs at h <;> simp_all [commitDB, applyCacheUpdates, newLivestreamModel,
    decrementRange_eq_prop]
  obtain ⟨h1, h2⟩ := h
  subst h1
  subst h2
  simp

/-- Claim C6, witness: the concrete successful run on the two-slot
calendar has exactly the stated effects. -/
theorem reserve_created_effects_witness :
    wModel.userId = 7 ∧ wModel.title = wReq.title ∧ wModel.description = wReq.description ∧
    wModel.playlistUrl = wReq.playlistUrl ∧ wModel.thumbnailUrl = wReq.thumbnailUrl ∧
    wModel.startAt = wReq.startAt ∧ wModel.endAt = wReq.endAt ∧
    wState.db.livestreams = twoSlotState.db.livestreams ++ [wModel] ∧
    wState.db.reservation_slots = twoSlotState.db.reservation_slots.map
      (fun r => if wReq.startAt ≤ r.startAt ∧ r.endAt ≤ wReq.endAt then
        { r with slot := r.slot - 1 } else r) ∧
    wState.db.livestream_tags = twoSlotState.db.livestream_tags ++
      wReq.tags.map (fun t => { livestreamId := wModel.id, tagId := t }) :=
  reserve_created_effects noFault twoSlotState 7 wReq wModel wState (by decide)

/-- Claim C7, counterexample: the partially overlapping request is
accepted, creating a broadcast whose interval starts before the
scheduling horizon — the containment part of the invariant fails. -/
theorem broadcast_outside_horizon_cex :
    (reserveLivestreamHandler noFault twoSlotState 7 overlapReq).1 =
        ReserveResult.created overlapModel ∧
      overlapModel.startAt < termStartAt := by
  decide

/-- Claim C7 (amended): provided every slot row has start before end,
every broadcast the handler creates has start before end, and its
interval contains at least one slot that still had capacity at
acceptance time.  (Containment in the horizon, and capacity of all
covering slots, do not hold; see the counterexample.) -/
theorem reserve_created_covering_slot (fault : FaultSchedule) (st : ServerState)
    (userID : Int) (req : ReserveLivestreamRequest) (ls : LivestreamModel)
    (hws : ∀ r ∈ st.db.reservation_slots, r.startAt < r.endAt)
    (h : (reserveLivestreamHandler fault st userID req).1 = ReserveResult.created ls) :
    ls.startAt < ls.endAt ∧
    ∃ r ∈ st.db.reservation_slots,
      (ls.startAt ≤ r.startAt ∧ r.endAt ≤ ls.endAt) ∧ 0 < r.slot := by
  unfold reserveLivestreamHandler at h
  split_ifs at h with h1 h2 h3 h4 h5 h6
  simp_all [newLivestreamModel]
  subst h
  unfold countAvailable at h4
  obtain ⟨r, hr⟩ := List.exists_mem_of_ne_nil _
    (fun hnil => h4 (by rw [List.length_eq_zero]; exact hnil))
  obtain ⟨hrmem, hrpred⟩ := List.mem_filter.mp hr
  obtain ⟨q, hqmem, hq⟩ := List.any_eq_true.mp hrpred
  simp only [Bool.and_eq_true, decide_eq_true_eq] at hq
  obtain ⟨⟨hqs, hqe⟩, hslot⟩ := hq
  obtain ⟨hqrows, hqrange⟩ := List.mem_filter.mp hqmem
  simp only [slotInRange, Bool.and_eq_true, decide_eq_true_eq] at hqrange
  have hrlt := hws r hrmem
  refine ⟨?_, r, hrmem, ⟨?_, ?_⟩, hslot⟩
  · show req.startAt < req.endAt
    omega
  · show req.startAt ≤ r.startAt
    omega
  · show r.endAt ≤ req.endAt
    omega

/-- Claim C7, witness: the concrete accepted reservation has start
before end and covers a slot that had capacity. -/
theorem reserve_created_covering_slot_witness :
    wModel.startAt < wModel.endAt ∧
      ∃ r ∈ twoSlotState.db.reservation_slots,
        (wModel.startAt ≤ r.startAt ∧ r.endAt ≤ wModel.endAt) ∧ 0 < r.slot :=
  reserve_created_covering_slot noFault twoSlotState 7 wReq wModel (by decide) (by decide)

/-- Claim C8: after a successful reservation, a cache lookup by the new
records id returns exactly the created record (the lookup reads only the
cache state, never the database), and the by-owner entry for the session
user contains the new record. -/
theorem reserve_created_cache (fault : FaultSchedule) (st : ServerState)
    (userID : Int) (req : ReserveLivestreamRequest) (ls : LivestreamModel) (st' : ServerState)
    (h : reserveLivestreamHandler fault st userID req = (ReserveResult.created ls, st')) :
    Cache.get st'.livestreamModelByIdCache ls.id = some ls ∧
    ∃ owned, Cache.get st'.livestreamModelByUserIDCache userID = some owned ∧ ls ∈ owned := by
  unfold reserveLivestreamHandler at h
  split_ifs at h <;> simp_all [applyCacheUpdates, newLivestreamModel]
  obtain ⟨h1, h2⟩ := h
  subst h1
  subst h2
  refine ⟨cache_get_set_self _ _ _, _, cache_get_set_self _ _ _, ?_⟩
  simp

/-- Claim C8, witness: the concrete successful run populates both cache
entries with the new record. -/
theorem reserve_created_cache_witness :
    Cache.get wState.livestreamModelByIdCache wModel.id = some wModel ∧
      ∃ owned, Cache.get wState.livestreamModelByUserIDCache 7 = some owned ∧ wModel ∈ owned :=
  reserve_created_cache noFault twoSlotState 7 wReq wModel wState (by decide)

/-- Claim C9: bulk-loading the same snapshot twice (without a reset in
between) leaves the `All` snapshot set-equal to a single load, because
`Set` is an unconditional last-writer-wins overwrite. -/
theorem bulkLoad_twice_all_equiv {K V : Type} [DecidableEq K]
    (records : List (K × V)) (v : V) :
    (v ∈ Cache.all (Cache.bulkLoad (Cache.bulkLoad (Cache.empty K V) records) records) ↔
      v ∈ Cache.all (Cache.bulkLoad (Cache.empty K V) records)) := by
  have hnd1 : (cacheKeys (Cache.bulkLoad (Cache.empty K V) records)).Nodup :=
    cacheKeys_nodup_bulkLoad records _ List.nodup_nil
  have hnd2 : (cacheKeys
      (Cache.bulkLoad (Cache.bulkLoad (Cache.empty K V) records) records)).Nodup :=
    cacheKeys_nodup_bulkLoad records _ hnd1
  rw [cache_mem_all_iff _ hnd2 v, cache_mem_all_iff _ hnd1 v]
  constructor
  · rintro ⟨k, hk⟩
    exact ⟨k, by rw [← cache_get_bulkLoad_twice records k]; exact hk⟩
  · rintro ⟨k, hk⟩
    exact ⟨k, by rw [cache_get_bulkLoad_twice records k]; exact hk⟩

/-- Claim C10: a validated request whose range matches no slot row makes
the handler assemble the count query from an empty condition list; the
malformed query fails, so the handler returns the 500 storage-failure
branch — not Overbooked — with the state untouched. -/
theorem reserve_no_slots_storage_failure (fault : FaultSchedule) (st : ServerState)
    (userID : Int) (req : ReserveLivestreamRequest)
    (hv : reserveOutOfTerm req = false)
    (hf : fault DbStep.selectSlots = false)
    (hempty : lockRange st.db req.startAt req.endAt = []) :
    reserveLivestreamHandler fault st userID req = (ReserveResult.storageFailure, st) := by
  unfold reserveLivestreamHandler
  simp [hv, hf, hempty]

/-- Claim C10, witness: a sub-hour request inside the horizon matches no
slot row and yields the storage failure with no state change. -/
theorem reserve_no_slots_storage_failure_witness :
    reserveLivestreamHandler noFault twoSlotState 7 (mkReq [] 1700874100 1700874200) =
      (ReserveResult.storageFailure, twoSlotState) :=
  reserve_no_slots_storage_failure noFault twoSlotState 7 (mkReq [] 1700874100 1700874200)
    (by decide) rfl (by decide)

end Isupipe
